import Mathlib

/-!
Shallow embedding of the news-scraper repository (src/src/scraper.js,
src/src/pagination.js and the scheduler module) together with proofs about
the claims on its extraction engine, pagination engine and crawl
orchestrator.

Strings are processed through their character lists (`String.toList` /
`List.asString`) with structurally recursive helpers, so that every
definition evaluates on concrete inputs.  JavaScript semantics that matter
are modelled explicitly: `||` on strings is empty-falsy (`jsOr`), `||`
between cheerio selection objects always yields the first selection because
such objects are truthy even when empty (`jsSelOr`), and `String.trim` /
`replace(/\s+/g, ' ')` are modelled over the ASCII whitespace characters
that occur in the development.  WHATWG `new URL` is treated as an external
collaborator: parsing of absolute http/https URLs is modelled by `parseURL`,
and relative-reference resolution is an explicit `Resolver` parameter.
-/

namespace NewsScraper

/-! ## JavaScript string primitives -/

/-- Whitespace characters recognised by the JavaScript `\s` class and by
`String.prototype.trim`, restricted to the ASCII range used throughout. -/
def isJsWs (c : Char) : Bool :=
  c == ' ' || c == '\t' || c == '\n' || c == '\r' || c == '\x0B' || c == '\x0C'

/-- JavaScript `trim` on a character list: drop whitespace from the front,
then from the back (`List.rdropWhile` is reverse-dropWhile). -/
def jsTrimL (l : List Char) : List Char :=
  List.rdropWhile isJsWs (List.dropWhile isJsWs l)

/-- JavaScript `String.prototype.trim`. -/
def jsTrim (s : String) : String :=
  (jsTrimL s.toList).asString

/-- JavaScript `text.replace(/X+/g, ' ')` for a character class `X` given by
the predicate `p`: every maximal run of `p`-characters is replaced by a
single space. -/
def collapseRuns (p : Char → Bool) : List Char → List Char
  | [] => []
  | c :: rest =>
    if p c then
      match rest with
      | d :: _ => if p d then collapseRuns p rest else ' ' :: collapseRuns p rest
      | [] => [' ']
    else c :: collapseRuns p rest

/-- Source `cleanText` (scraper.js lines 341-347):
`text.replace(/\s+/g, ' ').replace(/\n+/g, ' ').trim()`. -/
def cleanTextL (l : List Char) : List Char :=
  jsTrimL (collapseRuns (fun c => c == '\n') (collapseRuns isJsWs l))

/-- Source `cleanText` on strings; `cleanText ""` is also what the JS
falsy-guard `if (!text) return ''` produces on the empty string. -/
def cleanText (s : String) : String :=
  (cleanTextL s.toList).asString

/-- JavaScript `a || b` on strings: the empty string is falsy. -/
def jsOr (a b : String) : String :=
  if a = "" then b else a

/-- Test whether `pat` occurs at the very front of `l`. -/
def isPrefixL : List Char → List Char → Bool
  | [], _ => true
  | _ :: _, [] => false
  | p :: ps, c :: cs => p == c && isPrefixL ps cs

/-- Test whether `pat` occurs anywhere in `l`
(JavaScript `String.prototype.includes`). -/
def containsL (pat : List Char) : List Char → Bool
  | [] => isPrefixL pat []
  | c :: rest => isPrefixL pat (c :: rest) || containsL pat rest

/-- JavaScript `s.includes(pat)`. -/
def strContains (s pat : String) : Bool :=
  containsL pat.toList s.toList

/-- JavaScript `s.startsWith(pat)`. -/
def strStartsWith (s pat : String) : Bool :=
  isPrefixL pat.toList s.toList

/-- Test whether `pat` occurs at the very end of `l`
(an anchored `pat$` regular expression). -/
def isSuffixL (pat l : List Char) : Bool :=
  isPrefixL pat.reverse l.reverse

/-- JavaScript `s.endsWith(pat)` / an anchored `pat$` regex test. -/
def strEndsWith (s pat : String) : Bool :=
  isSuffixL pat.toList s.toList

/-- ASCII lower-casing of a string, modelling `String.prototype.toLowerCase`
on the ASCII inputs used in this development. -/
def jsToLower (s : String) : String :=
  (s.toList.map Char.toLower).asString

/-- JavaScript `String.prototype.split` with a single-character separator:
the list of (possibly empty) chunks between separator occurrences. -/
def splitOnCharL (sep : Char) : List Char → List (List Char)
  | [] => [[]]
  | c :: rest =>
    match splitOnCharL sep rest with
    | [] => [[c]]
    | h :: t => if c == sep then [] :: h :: t else (c :: h) :: t

/-- Number of chunks produced by JavaScript `s.split(sep)`. -/
def jsSplitCount (s : String) (sep : Char) : Nat :=
  (splitOnCharL sep s.toList).length

/-- JavaScript `s.substring(0, n)` (ASCII scope: code units = characters). -/
def jsTake (s : String) (n : Nat) : String :=
  (s.toList.take n).asString

/-! ## WHATWG URL model

The source relies on Node's `URL` class.  `parseURL` models construction of
a `URL` from an absolute `http://` / `https://` string: it fails (the JS
constructor throws) on anything else, and exposes the `protocol`,
`hostname`, `pathname` and `search` components read by the code.  The
`pathname` of an empty path is `/` and `search` carries its leading `?`,
as in the standard.  Resolution of an href against a base
(`new URL(href, base)`) is an external collaborator modelled by an explicit
`Resolver` argument. -/

structure URLParts where
  protocol : String
  hostname : String
  pathname : String
  search : String
deriving Repr, DecidableEq

/-- Characters terminating the host component. -/
def isHostEnd (c : Char) : Bool :=
  c == '/' || c == '?' || c == '#'

/-- Characters terminating the path component. -/
def isPathEnd (c : Char) : Bool :=
  c == '?' || c == '#'

/-- Model of `new URL(s)` for absolute http/https URLs (see section header). -/
def parseURL (s : String) : Option URLParts :=
  let l := s.toList
  let parsed : Option (String × List Char) :=
    if isPrefixL "http://".toList l then some ("http:", l.drop 7)
    else if isPrefixL "https://".toList l then some ("https:", l.drop 8)
    else none
  match parsed with
  | none => none
  | some (proto, rest) =>
    let hostport := rest.takeWhile (fun c => !isHostEnd c)
    let afterHost := rest.drop hostport.length
    let hostname := hostport.takeWhile (fun c => !(c == ':'))
    if hostname.isEmpty then none
    else
      let path := afterHost.takeWhile (fun c => !isPathEnd c)
      let afterPath := afterHost.drop path.length
      let search :=
        match afterPath with
        | '?' :: _ => afterPath.takeWhile (fun c => !(c == '#'))
        | _ => []
      some { protocol := proto
             hostname := hostname.asString
             pathname := if path.isEmpty then "/" else path.asString
             search := search.asString }

/-- Source `isValidUrl` (scraper.js lines 332-339): `new URL(url)` must not
throw and the string must start with `http://` or `https://`. -/
def isValidUrl (url : String) : Bool :=
  (parseURL url).isSome && (strStartsWith url "http://" || strStartsWith url "https://")

/-- External collaborator modelling `new URL(href, base).href`:
`none` when the JS constructor would throw. -/
def Resolver : Type :=
  (href : String) → (base : String) → Option String

/-- Concrete resolver used as a test fixture: hrefs that are already
canonical absolute http/https URLs resolve to themselves, everything else
throws.  This is how `new URL` behaves on such hrefs, which are the only
ones the concrete test documents below contain. -/
def canonicalResolver : Resolver :=
  fun href _ => if isValidUrl href then some href else none

/-! ## Document model for the Extraction Engine

A cheerio document is modelled by the data the extraction code reads from
it: for each selector string, the list of matched container elements in
document order (`Doc.selects`), and the list of `a[href]` anchors used by
the link-harvesting fallback (`Doc.anchors`).  A container element is
modelled by the result of `$container.find(sel).first()` for each selector
the field-extraction sub-procedure probes (`Container.finds`);  a missing
entry is an empty selection.  An element carries its concatenated text and
its attributes. -/

structure Elem where
  text : String
  attrs : List (String × String)
deriving Repr, DecidableEq

/-- Cheerio `el.attr(name)`: `none` when the attribute is absent
(JS `undefined`). -/
def Elem.attr (e : Elem) (name : String) : Option String :=
  e.attrs.lookup name

/-- JavaScript `el.attr(name) || fallback-chain` step: absent attributes and
empty attribute values are both falsy. -/
def attrD (e : Elem) (name : String) : String :=
  (e.attr name).getD ""

structure Container where
  finds : List (String × Elem)
deriving Repr, DecidableEq

/-- Result of `$container.find(sel).first()`: the first matched element, or
`none` for an empty selection (`.length == 0`). -/
def Container.find (c : Container) (sel : String) : Option Elem :=
  c.finds.lookup sel

structure Anchor where
  href : String
  text : String
  className : String
deriving Repr, DecidableEq

structure Doc where
  selects : List (String × List Container)
  anchors : List Anchor
deriving Repr, DecidableEq

/-- Cheerio `$(selector)` on the document: all matches in document order. -/
def Doc.select (d : Doc) (sel : String) : List Container :=
  (d.selects.lookup sel).getD []

/-- The article record produced by `parseArticle` (scraper.js lines 238-246). -/
structure Article where
  title : String
  url : String
  description : String
  image : String
  date : String
  author : String
  scrapedAt : String
deriving Repr, DecidableEq

/-! ## Field-extraction sub-procedure (scraper.js `parseArticle`) -/

/-- Title selectors (scraper.js lines 142-148). -/
def titleSelectors : List String :=
  ["h1", "h2", "h3", "h4", "[class*=\"title\"]", "[class*=\"headline\"]",
   ".entry-title", "a[title]"]

/-- Link selectors (scraper.js lines 160-164). -/
def linkSelectors : List String :=
  ["a[href]", "[href]", "link"]

/-- Description selectors (scraper.js lines 184-190). -/
def descSelectors : List String :=
  ["p", "[class*=\"excerpt\"]", "[class*=\"summary\"]",
   "[class*=\"description\"]", ".entry-summary"]

/-- Title loop (scraper.js lines 150-156): first non-empty trimmed text of a
matched title selector, else the empty string. -/
def findTitle (c : Container) : List String → String
  | [] => ""
  | sel :: rest =>
    match c.find sel with
    | none => findTitle c rest
    | some el =>
      let t := jsTrim el.text
      if t ≠ "" then t else findTitle c rest

/-- Link loop (scraper.js lines 166-180).  `url` is assigned the raw `href`
before resolution; on successful resolution the loop breaks with the
resolved URL, on a resolution failure it continues with the raw href left
in `url`, and a matched element without a usable href overwrites `url`
with the empty string.  `acc` is the current value of the `url` variable. -/
def findUrl (R : Resolver) (c : Container) (baseUrl : String) :
    List String → String → String
  | [], acc => acc
  | sel :: rest, acc =>
    match c.find sel with
    | none => findUrl R c baseUrl rest acc
    | some el =>
      let href := attrD el "href"
      if href = "" then findUrl R c baseUrl rest ""
      else
        match R href baseUrl with
        | some resolved => resolved
        | none => findUrl R c baseUrl rest href

/-- Description loop (scraper.js lines 192-201): a matched selector's
trimmed text is assigned to `description`; the loop breaks (truncating to
500) only when that text is non-empty and longer than 20 characters,
otherwise the assigned text stays in `description` while the loop goes on.
`acc` is the current value of the `description` variable. -/
def findDescription (c : Container) : List String → String → String
  | [], acc => acc
  | sel :: rest, acc =>
    match c.find sel with
    | none => findDescription c rest acc
    | some el =>
      let d := jsTrim el.text
      if d ≠ "" ∧ d.length > 20 then jsTake d 500
      else findDescription c rest d

/-- Image extraction (scraper.js lines 204-215): first `img` element's
`src` or lazy-load `data-src`, resolved against the base; a resolution
failure empties the field. -/
def findImage (R : Resolver) (c : Container) (baseUrl : String) : String :=
  match c.find "img" with
  | none => ""
  | some el =>
    let image := jsOr (attrD el "src") (jsOr (attrD el "data-src") "")
    if image ≠ "" then
      match R image baseUrl with
      | some resolved => resolved
      | none => ""
    else image

/-- JavaScript `||` between two cheerio selections: a selection object is
truthy even when it matched nothing (`.length == 0`), so the disjunction
always evaluates to its first operand.  This reproduces scraper.js lines
219-221 and 229-230, where the fallback selections are therefore dead
code. -/
def jsSelOr (a _b : Option Elem) : Option Elem :=
  a

/-- Date extraction (scraper.js lines 217-225): the `||` chain of
selections always yields the `find('time')` selection (see `jsSelOr`); when
it matched, the machine-readable `datetime` attribute is preferred over the
trimmed element text. -/
def findDate (c : Container) : String :=
  match jsSelOr (c.find "time")
      (jsSelOr (c.find "[datetime]") (c.find "[class*=\"date\"]")) with
  | none => ""
  | some el => jsOr (attrD el "datetime") (jsOr (jsTrim el.text) "")

/-- Author extraction (scraper.js lines 227-234): the `||` chain of
selections always yields the `find('[class*="author"]')` selection (see
`jsSelOr`); the author is the trimmed element text, with no further
normalization. -/
def findAuthor (c : Container) : String :=
  match jsSelOr (c.find "[class*=\"author\"]") (c.find "[rel*=\"author\"]") with
  | none => ""
  | some el => jsOr (jsTrim el.text) ""

/-- Source `parseArticle` (scraper.js lines 139-250).  `now` models
`new Date().toISOString()`. -/
def parseArticle (R : Resolver) (now : String) (c : Container)
    (baseUrl : String) : Option Article :=
  if findTitle c titleSelectors ≠ "" ∧ findUrl R c baseUrl linkSelectors "" ≠ "" ∧
      isValidUrl (findUrl R c baseUrl linkSelectors "") then
    some { title := cleanText (findTitle c titleSelectors)
           url := findUrl R c baseUrl linkSelectors ""
           description := cleanText (findDescription c descSelectors "")
           image := findImage R c baseUrl
           date := findDate c
           author := findAuthor c
           scrapedAt := now }
  else none

/-! ## Link-harvesting fallback and URL heuristic -/

/-- Matches the regex `/\/\d{4}\/\d{2}\//`: a `/`, four digits, `/`, two
digits, `/` somewhere in the list. -/
def hasDateSegL : List Char → Bool
  | '/' :: a :: b :: c :: d :: '/' :: e :: f :: '/' :: rest =>
    (a.isDigit && b.isDigit && c.isDigit && d.isDigit && e.isDigit && f.isDigit)
      || hasDateSegL (a :: b :: c :: d :: '/' :: e :: f :: '/' :: rest)
  | _ :: rest => hasDateSegL rest
  | [] => false

/-- Article-shaped URL patterns (scraper.js lines 300-308), applied to the
lower-cased URL. -/
def hasArticlePattern (uLow : String) : Bool :=
  strContains uLow "/news/" || strContains uLow "/article/" ||
  strContains uLow "/story/" || strContains uLow "/post/" ||
  hasDateSegL uLow.toList ||
  strContains uLow "-article-" || strContains uLow "-news-"

/-- Skip patterns (scraper.js lines 311-320), applied to the lower-cased
URL; the extension patterns are anchored at the end. -/
def hasSkipPattern (uLow : String) : Bool :=
  strContains uLow "/category/" || strContains uLow "/tag/" ||
  strContains uLow "/author/" || strContains uLow "/page/" ||
  strEndsWith uLow ".pdf" || strEndsWith uLow ".jpg" ||
  strEndsWith uLow ".png" || strEndsWith uLow ".gif"

/-- Source `looksLikeArticleUrl` (scraper.js lines 296-330).  Note the
fallback disjunct counts the chunks of `url.toLowerCase().split('/')` over
the whole URL string (scheme and host included), not path segments. -/
def looksLikeArticleUrl (url : String) : Bool :=
  if hasSkipPattern (jsToLower url) then false
  else hasArticlePattern (jsToLower url) ||
    decide (jsSplitCount (jsToLower url) '/' ≥ 4)

/-- Class stoplist of the link-harvesting pass (scraper.js line 268). -/
def skipClasses : List String :=
  ["nav", "menu", "footer", "header", "sidebar", "comment"]

/-- Per-anchor step of `extractFromLinks` (scraper.js lines 256-290):
`none` when the anchor is skipped. -/
def harvestAnchor (R : Resolver) (now : String) (baseUrl : String)
    (a : Anchor) : Option Article :=
  let text := jsTrim a.text
  if text = "" ∨ text.length < 15 ∨ text.length > 200 then none
  else
    let className := jsToLower a.className
    if skipClasses.any (fun sk => strContains className sk) then none
    else
      match R a.href baseUrl with
      | none => none
      | some url =>
        if isValidUrl url && looksLikeArticleUrl url then
          some { title := cleanText text
                 url := url
                 description := ""
                 image := ""
                 date := ""
                 author := ""
                 scrapedAt := now }
        else none

/-- Source `extractFromLinks` (scraper.js lines 252-294): harvest qualifying
anchors in document order, capped at 50 entries.  There is no seen-URL
tracking in this pass. -/
def extractFromLinks (R : Resolver) (now : String) (d : Doc)
    (baseUrl : String) : List Article :=
  (d.anchors.filterMap (harvestAnchor R now baseUrl)).take 50

/-! ## Container-selector cascade (`extractArticles`) -/

/-- Container selectors tried in priority order (scraper.js lines 85-106). -/
def selectors : List String :=
  ["article", "[class*=\"article\"]", "[class*=\"news\"]", "[class*=\"post\"]",
   "[id*=\"article\"]", "[id*=\"news\"]", "[id*=\"post\"]",
   ".news-item", ".story", ".entry", ".card", ".item",
   "article.article", "article.post", "article.story"]

/-- One `elements.each` step (scraper.js lines 112-121): accept the parsed
article when it exists, has truthy title and url, and its url is not in the
seen set; the accumulator is `(articles, seenUrls)`. -/
def addArticle (acc : List Article × List String) (a? : Option Article) :
    List Article × List String :=
  match a? with
  | none => acc
  | some a =>
    if a.title ≠ "" ∧ a.url ≠ "" ∧ a.url ∉ acc.2 then
      (acc.1 ++ [a], acc.2 ++ [a.url])
    else acc

/-- Process all containers matched by one selector (scraper.js lines
110-121). -/
def selectorPass (R : Resolver) (now : String) (d : Doc) (baseUrl : String)
    (sel : String) (acc : List Article × List String) :
    List Article × List String :=
  (d.select sel).foldl (fun acc c => addArticle acc (parseArticle R now c baseUrl)) acc

/-- Selector loop of `extractArticles` (scraper.js lines 109-128): stop at
the first selector after which the article list is non-empty. -/
def trySelectors (R : Resolver) (now : String) (d : Doc) (baseUrl : String) :
    List String → List Article × List String → List Article × List String
  | [], acc => acc
  | sel :: rest, acc =>
    if (selectorPass R now d baseUrl sel acc).1.length > 0 then
      selectorPass R now d baseUrl sel acc
    else trySelectors R now d baseUrl rest (selectorPass R now d baseUrl sel acc)

/-- Source `extractArticles` (scraper.js lines 80-137): the selector cascade,
falling back to link harvesting when it produced nothing. -/
def extractArticles (R : Resolver) (now : String) (d : Doc)
    (baseUrl : String) : List Article :=
  if (trySelectors R now d baseUrl selectors ([], [])).1.length = 0 then
    extractFromLinks R now d baseUrl
  else (trySelectors R now d baseUrl selectors ([], [])).1

/-! ## Pagination Engine (src/src/pagination.js) -/

/-- Numeric value of a list of decimal digits (JS `parseInt` on a digit
string). -/
def digitsVal (l : List Char) : Nat :=
  l.foldl (fun n c => n * 10 + (c.toNat - 48)) 0

/-- Model of `url.match(/MARKER(\d+)/)`: scan for the first occurrence of
`m` that is immediately followed by at least one digit and return the value
of the maximal digit run there. -/
def findNumAfterL (m : List Char) : List Char → Option Nat
  | [] => none
  | c :: rest =>
    if isPrefixL m (c :: rest) then
      match (c :: rest).drop m.length with
      | d :: ds =>
        if d.isDigit then some (digitsVal ((d :: ds).takeWhile Char.isDigit))
        else findNumAfterL m rest
      | [] => findNumAfterL m rest
    else findNumAfterL m rest

/-- Model of `s.replace(/MARKER\d+/, repl)` (non-global regex): replace the
first occurrence of `m` followed by a maximal non-empty digit run with
`repl`; when there is no match the string is unchanged. -/
def replaceNumPatL (m repl : List Char) : List Char → List Char
  | [] => []
  | c :: rest =>
    if isPrefixL m (c :: rest) then
      match (c :: rest).drop m.length with
      | d :: ds =>
        if d.isDigit then repl ++ (d :: ds).dropWhile Char.isDigit
        else c :: replaceNumPatL m repl rest
      | [] => c :: replaceNumPatL m repl rest
    else c :: replaceNumPatL m repl rest

/-- String wrapper for `replaceNumPatL`. -/
def strReplaceNumPat (s m repl : String) : String :=
  (replaceNumPatL m.toList repl.toList s.toList).asString

/-- Model of `url.replace(/\/$/, '')`: drop one trailing slash. -/
def stripTrailingSlash (s : String) : String :=
  (if s.toList.getLast? = some '/' then s.toList.dropLast else s.toList).asString

/-- Source `extractPageNumber` (pagination.js lines 215-232): first of the
patterns `/page/<digits>`, `?page=<digits>`, `&page=<digits>`,
`/p/<digits>` that matches, defaulting to 1. -/
def extractPageNumber (url : String) : Nat :=
  (findNumAfterL "/page/".toList url.toList <|>
   findNumAfterL "?page=".toList url.toList <|>
   findNumAfterL "&page=".toList url.toList <|>
   findNumAfterL "/p/".toList url.toList).getD 1

/-- Pagination view of a fetched document: for each explicit next-link
selector, the href of its first match when that attribute is present
(`nextSel`), and the `(href, text)` pairs of the anchors inside
pagination/paging containers (`pageAnchors`), in document order. -/
structure PagDoc where
  nextSel : List (String × String)
  pageAnchors : List (String × String)
deriving Repr, DecidableEq

/-- Explicit next-link selectors (pagination.js lines 124-131). -/
def nextSelectors : List String :=
  ["a.next", "a[rel=\"next\"]", ".pagination a.next", ".pagination .next",
   "[class*=\"pagination\"] a[class*=\"next\"]",
   "[class*=\"paging\"] a[class*=\"next\"]"]

/-- Strategy 1 (pagination.js lines 133-146): first selector with a usable,
non-`javascript:` href that resolves; a failing resolution moves on to the
next selector. -/
def strat1 (R : Resolver) (pd : PagDoc) (cur : String) :
    List String → Option String
  | [] => none
  | sel :: rest =>
    match pd.nextSel.lookup sel with
    | none => strat1 R pd cur rest
    | some href =>
      if href ≠ "" ∧ ¬ strContains href "javascript:" = true then
        match R href cur with
        | some u => some u
        | none => strat1 R pd cur rest
      else strat1 R pd cur rest

/-- Digit-string test: the numeric pagination anchors the claims exercise.
JS accepts a few more shapes (`!isNaN(text)` with `parseInt`), but a
non-numeric text never survives the later `page > current` filter, so
restricting the model to digit texts is behaviour-preserving for link
selection. -/
def isDigitsL (l : List Char) : Bool :=
  !l.isEmpty && l.all Char.isDigit

/-- Stable minimum by page number: JS sorts ascending with a stable sort and
takes the first element, i.e. the earliest link with the smallest page. -/
def pickMinPage : List (String × Nat) → Option (String × Nat)
  | [] => none
  | x :: rest =>
    match pickMinPage rest with
    | none => some x
    | some y => if y.2 < x.2 then some y else some x

/-- Strategy 2 (pagination.js lines 148-177): among resolvable pagination
anchors whose trimmed text is numeric, the link with the smallest page
number strictly greater than the current page. -/
def strat2 (R : Resolver) (pd : PagDoc) (cur : String) : Option String :=
  let curNum := extractPageNumber cur
  let pageLinks := pd.pageAnchors.filterMap (fun a =>
    let t := jsTrim a.2
    if a.1 ≠ "" ∧ isDigitsL t.toList = true then
      (R a.1 cur).map (fun u => (u, digitsVal t.toList))
    else none)
  (pickMinPage (pageLinks.filter (fun l => decide (l.2 > curNum)))).map (·.1)

/-- The `patterns` array of strategy 3 (pagination.js lines 185-192), with
`nextPageNum = extractPageNumber cur + 1`. -/
def strat3Patterns (cur : String) : List String :=
  [strReplaceNumPat cur "/page/" ("/page/" ++ toString (extractPageNumber cur + 1)),
   strReplaceNumPat cur "?page=" ("?page=" ++ toString (extractPageNumber cur + 1)),
   strReplaceNumPat cur "&page=" ("&page=" ++ toString (extractPageNumber cur + 1)),
   strReplaceNumPat cur "/p/" ("/p/" ++ toString (extractPageNumber cur + 1)),
   stripTrailingSlash cur ++ "/page/" ++ toString (extractPageNumber cur + 1),
   cur ++ "?page=" ++ toString (extractPageNumber cur + 1)]

/-- Strategy 3 (pagination.js lines 179-200): URL-pattern synthesis; the
first transformation that actually changes the URL is the candidate. -/
def strat3 (cur : String) : Option String :=
  (strat3Patterns cur).find? (fun p => p ≠ cur)

/-- Strategy cascade of `findNextPage` on a successfully fetched document
(pagination.js lines 118-202). -/
def findNextPageDoc (R : Resolver) (pd : PagDoc) (cur : String) :
    Option String :=
  match strat1 R pd cur nextSelectors with
  | some u => some u
  | none =>
    match strat2 R pd cur with
    | some u => some u
    | none => strat3 cur

/-- Options record of the pagination handler (pagination.js lines 17-21);
callers merge their overrides into these defaults. -/
structure PagOptions where
  maxPages : Nat := 5
  delayBetweenPages : Nat := 1000
  sameDomainOnly : Bool := true
deriving Repr, DecidableEq

/-- The base path used by validation: the current path with its first
`/page/<digits>` occurrence removed, then its first `/p/<digits>`
occurrence removed (pagination.js line 261). -/
def basePathOf (pathname : String) : String :=
  strReplaceNumPat (strReplaceNumPat pathname "/page/" "") "/p/" ""

/-- Source `isValidPagination` (pagination.js lines 241-268); the spec calls
it `isValidNext`.  A URL that fails to parse makes the function return
false (the JS `catch`). -/
def isValidPagination (currentUrl nextUrl : String) (options : PagOptions) :
    Bool :=
  match parseURL currentUrl with
  | none => false
  | some current =>
    match parseURL nextUrl with
    | none => false
    | some next =>
      if options.sameDomainOnly && current.hostname ≠ next.hostname then false
      else if currentUrl = nextUrl then false
      else
        strStartsWith next.pathname (basePathOf current.pathname) ||
          strContains next.pathname "page" || strContains next.search "page"

/-! ## Crawl Orchestrator -/

/-- A fetched page, as seen by the two engines. -/
structure Page where
  doc : Doc
  pag : PagDoc

/-- Fetcher collaborator: the document graph.  `Except.error` models a
network error, timeout or non-success status. -/
def World : Type :=
  String → Except String Page

/-- Source `scrapeWithCheerio` (scraper.js lines 49-71): fetch and extract;
any failure is caught and yields the empty list. -/
def scrapeWithCheerio (R : Resolver) (now : String) (w : World)
    (url : String) : List Article :=
  match w url with
  | .error _ => []
  | .ok p => extractArticles R now p.doc url

/-- Source `scrapeNews` (scraper.js lines 25-41): delegates to
`scrapeWithCheerio`, whose own catch-all means the outer rethrow never
fires for a fetch failure. -/
def scrapeNews (R : Resolver) (now : String) (w : World) (url : String) :
    List Article :=
  scrapeWithCheerio R now w url

/-- Source `findNextPage` (pagination.js lines 109-208): refetch the current
page; a fetch failure is caught and yields no candidate. -/
def findNextPage (R : Resolver) (w : World) (cur : String) : Option String :=
  match w cur with
  | .error _ => none
  | .ok p => findNextPageDoc R p.pag cur

/-- Cross-page merge (pagination.js lines 50-57): append articles whose url
is not in the seen set. -/
def mergeNew (pageArticles : List Article) (acc : List Article × List String) :
    List Article × List String :=
  pageArticles.foldl
    (fun acc a => if a.url ∉ acc.2 then (acc.1 ++ [a], acc.2 ++ [a.url]) else acc)
    acc

/-- The `while (currentPageUrl && pageCount < opts.maxPages)` loop of
`scrapeMultiplePages` (pagination.js lines 41-77), with
`fuel = maxPages - pageCount` and result `(allArticles, pageCount)`.  Each
iteration scrapes one page, merges, discovers a next-page candidate and
follows it only when validation accepts it. -/
def crawlLoop (R : Resolver) (now : String) (w : World) (opts : PagOptions) :
    Nat → String → List Article × List String → Nat → List Article × Nat
  | 0, _, acc, count => (acc.1, count)
  | fuel + 1, url, acc, count =>
    let acc' := mergeNew (scrapeWithCheerio R now w url) acc
    match findNextPage R w url with
    | some nxt =>
      if isValidPagination url nxt opts then
        crawlLoop R now w opts fuel nxt acc' (count + 1)
      else (acc'.1, count + 1)
    | none => (acc'.1, count + 1)

/-- Source `scrapeMultiplePages` (pagination.js lines 31-86): run the crawl
loop from the starting URL with empty state. -/
def scrapeMultiplePages (R : Resolver) (now : String) (w : World)
    (url : String) (opts : PagOptions) : List Article :=
  (crawlLoop R now w opts opts.maxPages url ([], []) 0).1

/-! ## Scheduler boundary (`NewsScheduler.runOnce`) -/

/-- Result of `runOnce`: either a success with a count and the article
sequence, or the caught-error branch. -/
inductive RunOutcome where
  | ok (count : Nat) (articles : List Article)
  | err (msg : String)
deriving Repr, DecidableEq

/-- The `success` field of the object `runOnce` returns. -/
def RunOutcome.success : RunOutcome → Bool
  | .ok _ _ => true
  | .err _ => false

/-- The article list `runOnce` reports (empty in the error branch). -/
def RunOutcome.articles : RunOutcome → List Article
  | .ok _ as => as
  | .err _ => []

/-- Configuration consumed by `runOnce` (defaults from the source). -/
structure RunConfig where
  url : String
  usePagination : Bool := false
  maxPages : Nat := 1
deriving Repr, DecidableEq

/-- Persistence collaborator: saving may fail, which is what the `catch` of
`runOnce` can observe. -/
def Saver : Type :=
  List Article → Except String Unit

/-- Source `NewsScheduler.runOnce` (scheduler module lines 496-551): scrape
(with or without pagination), report success with zero articles when
nothing was found, otherwise save and report; only a thrown error (from the
persistence collaborator in this model) produces the failure branch. -/
def runOnce (R : Resolver) (now : String) (w : World) (save : Saver)
    (cfg : RunConfig) : RunOutcome :=
  let articles :=
    if cfg.usePagination && cfg.maxPages > 1 then
      scrapeMultiplePages R now w cfg.url { maxPages := cfg.maxPages }
    else scrapeNews R now w cfg.url
  if articles.length = 0 then .ok 0 []
  else
    match save articles with
    | .ok _ => .ok articles.length articles
    | .error e => .err e

/-! ## Concrete test documents (fixtures for witnesses and counterexamples) -/

/-- A container with a heading and a resolvable link, as produced by markup
such as `<div><h2>Sample headline</h2><a href="…"></a></div>`. -/
def goodContainer (u : String) : Container :=
  { finds := [("h2", { text := "Sample headline", attrs := [] }),
              ("a[href]", { text := "", attrs := [("href", u)] })] }

/-- A document whose container selectors match nothing and whose body holds
two anchors resolving to the same absolute URL. -/
def dupDoc : Doc :=
  { selects := []
    anchors :=
      [{ href := "https://a.com/news/x", text := "a reasonably long headline",
         className := "" },
       { href := "https://a.com/news/x", text := "another quite long headline",
         className := "" }] }

/-- A container whose author element's text holds an internal double
space. -/
def authorContainer : Container :=
  { finds := [("h1", { text := "My Title", attrs := [] }),
              ("a[href]", { text := "", attrs := [("href", "https://a.com/news/x")] }),
              ("[class*=\"author\"]", { text := "John  Doe", attrs := [] })] }

/-- A container with no `time` element but with an element whose class
contains `date`. -/
def dateContainer : Container :=
  { finds := [("h2", { text := "Title here", attrs := [] }),
              ("a[href]", { text := "", attrs := [("href", "https://a.com/news/y")] }),
              ("[class*=\"date\"]", { text := "2024-05-01", attrs := [] })] }

/-- A container whose only description candidate is a short paragraph. -/
def shortDescContainer : Container :=
  { finds := [("h2", { text := "Title here", attrs := [] }),
              ("a[href]", { text := "", attrs := [("href", "https://a.com/news/z")] }),
              ("p", { text := "short", attrs := [] })] }

/-- A document matched only by the second container selector, with a
lower-priority generic selector also productive. -/
def precedenceDoc : Doc :=
  { selects := [("[class*=\"article\"]", [goodContainer "https://a.com/news/a"]),
                (".item", [goodContainer "https://a.com/news/b"])]
    anchors := [] }

/-- A document whose first selector yields one accepted record. -/
def containerDoc : Doc :=
  { selects := [("article", [goodContainer "https://a.com/news/a"])]
    anchors := [] }

/-- A document with a single qualifying anchor whose URL has a one-segment
path and matches no article pattern. -/
def shortPathDoc : Doc :=
  { selects := []
    anchors := [{ href := "https://a.com/x", text := "some long enough anchor text",
                  className := "" }] }

/-- A fetcher in which every request fails. -/
def failWorld : World :=
  fun _ => .error "network error"

/-- A persistence collaborator that always succeeds. -/
def saveOk : Saver :=
  fun _ => .ok ()

/-! ## Spec-side comparison definitions -/

/-- Modelled from the spec: the number of path segments of a URL, for
comparison with the fallback disjunct of `looksLikeArticleUrl` ("the path
has at least 4 segments"): the non-empty chunks of the parsed pathname
split on `/`. -/
def specPathSegments (url : String) : Nat :=
  match parseURL (jsToLower url) with
  | some parts =>
    ((splitOnCharL '/' parts.pathname.toList).filter
      (fun seg => !seg.isEmpty)).length
  | none => 0

/-- Strip a trailing `marker<digits>` run: from the earliest position where
`m` is followed by one or more digits reaching the end of the list, cut the
rest off; otherwise leave the list unchanged. -/
def stripNumSuffixL (m : List Char) : List Char → List Char
  | [] => []
  | c :: rest =>
    if isPrefixL m (c :: rest) && isDigitsL ((c :: rest).drop m.length) then []
    else c :: stripNumSuffixL m rest

/-- Modelled from the spec: the current path "stripped of any
`/page/<digits>` or `/p/<digits>` suffix", for comparison with
`basePathOf`, which instead removes the first occurrence anywhere in the
path. -/
def specSuffixBasePath (pathname : String) : String :=
  (stripNumSuffixL "/p/".toList
    (stripNumSuffixL "/page/".toList pathname.toList)).asString

/-! ## Helper lemmas -/

theorem crawlLoop_count_le (R : Resolver) (now : String) (w : World)
    (opts : PagOptions) :
    ∀ (fuel : Nat) (url : String) (acc : List Article × List String)
      (count : Nat), (crawlLoop R now w opts fuel url acc count).2 ≤ count + fuel := by
  intro fuel
  induction fuel with
  | zero => intro url acc count; simp [crawlLoop]
  | succ n ih =>
    intro url acc count
    simp only [crawlLoop]
    cases findNextPage R w url with
    | none => simp
    | some nxt =>
      by_cases h : isValidPagination url nxt opts = true
      · simp only [h, if_true]
        have := ih nxt (mergeNew (scrapeWithCheerio R now w url) acc) (count + 1)
        omega
      · simp only [eq_false_of_ne_true h, if_false]
        simp

theorem stripTrailingSlash_length (s : String) :
    s.length - 1 ≤ (stripTrailingSlash s).length := by
  unfold stripTrailingSlash
  split
  · show s.length - 1 ≤ s.toList.dropLast.length
    rw [List.length_dropLast]
    exact Nat.le_refl _
  · show s.length - 1 ≤ s.toList.length
    exact Nat.sub_le _ _

theorem strat3_isSome (cur : String) : (strat3 cur).isSome = true := by
  unfold strat3
  rw [List.find?_isSome]
  refine ⟨stripTrailingSlash cur ++ "/page/" ++ toString (extractPageNumber cur + 1),
    ?_, ?_⟩
  · unfold strat3Patterns
    exact List.mem_cons_of_mem _ (List.mem_cons_of_mem _ (List.mem_cons_of_mem _
      (List.mem_cons_of_mem _ (List.mem_cons_self _ _))))
  · rw [decide_eq_true_eq]
    intro h
    have hlen := congrArg String.length h
    rw [String.length_append, String.length_append] at hlen
    have h6 : ("/page/" : String).length = 6 := rfl
    have := stripTrailingSlash_length cur
    omega

/-! ## Claim theorems -/

/-- C8: for every starting URL, every `maxPages`, and every document graph
(`World`), including cyclic ones, the crawl loop of `scrapeMultiplePages`
performs at most `maxPages` iterations: the final value of its `pageCount`
variable (second component of `crawlLoop`) is bounded by `opts.maxPages`,
and the article result is the loop's first component. -/
theorem scrapeMultiplePages_page_bound (R : Resolver) (now : String)
    (w : World) (url : String) (opts : PagOptions) :
    (crawlLoop R now w opts opts.maxPages url ([], []) 0).2 ≤ opts.maxPages ∧
    scrapeMultiplePages R now w url opts =
      (crawlLoop R now w opts opts.maxPages url ([], []) 0).1 := by
  constructor
  · have := crawlLoop_count_le R now w opts opts.maxPages url ([], []) 0
    omega
  · rfl

/-- C10: pagination discovery on a successfully fetched document never
returns no candidate: strategy 3 of `findNextPageDoc` always synthesizes a
URL different from the current one (pattern 5 appends `/page/<n+1>` to the
trailing-slash-stripped URL, which is strictly longer), so the cascade
always yields some candidate. -/
theorem findNextPageDoc_always_some (R : Resolver) (pd : PagDoc)
    (cur : String) : (findNextPageDoc R pd cur).isSome = true := by
  unfold findNextPageDoc
  cases strat1 R pd cur nextSelectors with
  | some u => rfl
  | none =>
    cases strat2 R pd cur with
    | some u => rfl
    | none => exact strat3_isSome cur

theorem scrapeWithCheerio_fetch_fail (R : Resolver) (now : String) (w : World)
    (url : String) (e : String) (h : w url = .error e) :
    scrapeWithCheerio R now w url = [] := by
  unfold scrapeWithCheerio
  rw [h]

theorem crawlLoop_first_fetch_fail (R : Resolver) (now : String) (w : World)
    (opts : PagOptions) (fuel : Nat) (url : String) (e : String)
    (h : w url = .error e) :
    (crawlLoop R now w opts fuel url ([], []) 0).1 = [] := by
  cases fuel with
  | zero => rfl
  | succ n =>
    simp only [crawlLoop]
    rw [scrapeWithCheerio_fetch_fail R now w url e h]
    have hnext : findNextPage R w url = none := by
      unfold findNextPage
      rw [h]
    rw [hnext]
    rfl

/-- C2 counterexample: when every fetch fails (in particular the first
page's), `runOnce` reports SUCCESS with zero articles — not the failure
indicator the claim requires. -/
theorem runOnce_first_page_fetch_failure_reports_success :
    runOnce canonicalResolver "2024-01-01T00:00:00.000Z" failWorld saveOk
        { url := "https://a.com/news" } = .ok 0 [] ∧
    (runOnce canonicalResolver "2024-01-01T00:00:00.000Z" failWorld saveOk
        { url := "https://a.com/news" }).success = true :=
  ⟨rfl, rfl⟩

/-- C2 (amended): a fetch failure on the first page of a crawl is caught
inside `scrapeWithCheerio`, which returns the empty list; `scrapeNews`
therefore yields no articles and `runOnce` reports success with a count of
zero and an empty article sequence (with or without pagination) — no error
propagates past the orchestrator boundary and no failure is indicated. -/
theorem runOnce_fetch_failure_amended (R : Resolver) (now : String)
    (w : World) (save : Saver) (cfg : RunConfig) (e : String)
    (h : w cfg.url = .error e) :
    scrapeNews R now w cfg.url = [] ∧ runOnce R now w save cfg = .ok 0 [] := by
  have hnews : scrapeNews R now w cfg.url = [] :=
    scrapeWithCheerio_fetch_fail R now w cfg.url e h
  refine ⟨hnews, ?_⟩
  unfold runOnce
  by_cases hp : (cfg.usePagination && decide (cfg.maxPages > 1)) = true
  · simp only [hp, if_true]
    rw [show scrapeMultiplePages R now w cfg.url { maxPages := cfg.maxPages } =
      (crawlLoop R now w { maxPages := cfg.maxPages } cfg.maxPages cfg.url
        ([], []) 0).1 from rfl]
    rw [crawlLoop_first_fetch_fail R now w _ cfg.maxPages cfg.url e h]
    rfl
  · simp only [eq_false_of_ne_true hp, if_false]
    rw [hnews]
    rfl

theorem runOnce_fetch_failure_amended_witness :
    failWorld "https://a.com/news" = .error "network error" ∧
    (scrapeNews canonicalResolver "T" failWorld "https://a.com/news" = [] ∧
     runOnce canonicalResolver "T" failWorld saveOk
       { url := "https://a.com/news" } = .ok 0 []) :=
  ⟨rfl, runOnce_fetch_failure_amended canonicalResolver "T" failWorld saveOk
    { url := "https://a.com/news" } "network error" rfl⟩

/-- C4: code-bug witness — on a container that has no `time` element but
does have an element whose class contains `date`, the emitted record's
`date` is empty: because a cheerio selection object is always truthy, the
`||` chain in the source never reaches the `[datetime]` or
`[class*="date"]` fallbacks. -/
theorem parseArticle_date_fallback_dead :
    dateContainer.find "time" = none ∧
    dateContainer.find "[class*=\"date\"]" =
      some { text := "2024-05-01", attrs := [] } ∧
    (parseArticle canonicalResolver "2024-06-01T00:00:00.000Z" dateContainer
        "https://a.com/").map (fun r => r.date) = some "" :=
  ⟨rfl, rfl, rfl⟩

/-! ## Seen-URL invariant of the container-selector pass -/

/-- Invariant of the `(articles, seenUrls)` accumulator: article URLs are
pairwise distinct and every emitted URL is recorded in the seen set. -/
def SeenInv (acc : List Article × List String) : Prop :=
  List.Pairwise (fun a b : Article => a.url ≠ b.url) acc.1 ∧
    ∀ a ∈ acc.1, a.url ∈ acc.2

theorem addArticle_inv (acc : List Article × List String)
    (a? : Option Article) (h : SeenInv acc) : SeenInv (addArticle acc a?) := by
  cases a? with
  | none => exact h
  | some a =>
    simp only [addArticle]
    split
    next hcond =>
      obtain ⟨_, _, hc3⟩ := hcond
      constructor
      · rw [List.pairwise_append]
        refine ⟨h.1, List.pairwise_singleton _ _, ?_⟩
        intro x hx y hy
        simp only [List.mem_singleton] at hy
        subst hy
        intro hxy
        exact hc3 (hxy ▸ h.2 x hx)
      · intro b hb
        rcases List.mem_append.1 hb with hb | hb
        · exact List.mem_append.2 (Or.inl (h.2 b hb))
        · simp only [List.mem_singleton] at hb
          subst hb
          exact List.mem_append.2 (Or.inr (by simp))
    next => exact h

theorem foldl_addArticle_inv (R : Resolver) (now : String) (baseUrl : String)
    (cs : List Container) :
    ∀ acc, SeenInv acc →
      SeenInv (cs.foldl
        (fun acc c => addArticle acc (parseArticle R now c baseUrl)) acc) := by
  induction cs with
  | nil => intro acc h; exact h
  | cons c rest ih =>
    intro acc h
    rw [List.foldl_cons]
    exact ih _ (addArticle_inv _ _ h)

theorem selectorPass_inv (R : Resolver) (now : String) (d : Doc)
    (baseUrl : String) (sel : String) (acc : List Article × List String)
    (h : SeenInv acc) : SeenInv (selectorPass R now d baseUrl sel acc) :=
  foldl_addArticle_inv R now baseUrl (d.select sel) acc h

theorem trySelectors_inv (R : Resolver) (now : String) (d : Doc)
    (baseUrl : String) :
    ∀ (sels : List String) (acc : List Article × List String), SeenInv acc →
      SeenInv (trySelectors R now d baseUrl sels acc) := by
  intro sels
  induction sels with
  | nil => intro acc h; exact h
  | cons s rest ih =>
    intro acc h
    simp only [trySelectors]
    split
    · exact selectorPass_inv R now d baseUrl s acc h
    · exact ih _ (selectorPass_inv R now d baseUrl s acc h)

/-- C1 (amended): the container-selector pass of `extractArticles` never
emits two records with equal `url` (the seen-URL set guards it), and
whenever that pass is productive it is the entire output of
`extractArticles`.  The link-harvesting fallback, by contrast, performs no
URL dedup — see the counterexample. -/
theorem extractArticles_container_pass_dedup (R : Resolver) (now : String)
    (d : Doc) (baseUrl : String) :
    List.Pairwise (fun a b : Article => a.url ≠ b.url)
      (trySelectors R now d baseUrl selectors ([], [])).1 ∧
    ((trySelectors R now d baseUrl selectors ([], [])).1 ≠ [] →
      extractArticles R now d baseUrl =
        (trySelectors R now d baseUrl selectors ([], [])).1) := by
  constructor
  · exact (trySelectors_inv R now d baseUrl selectors ([], [])
      ⟨List.Pairwise.nil, by simp⟩).1
  · intro hne
    unfold extractArticles
    rw [if_neg]
    intro hlen
    exact hne (List.length_eq_zero.1 hlen)

theorem extractArticles_container_pass_dedup_witness :
    ((trySelectors canonicalResolver "T" containerDoc "https://a.com/"
        selectors ([], [])).1 ≠ [] ∧
     extractArticles canonicalResolver "T" containerDoc "https://a.com/" =
       (trySelectors canonicalResolver "T" containerDoc "https://a.com/"
         selectors ([], [])).1) :=
  ⟨by decide,
   (extractArticles_container_pass_dedup canonicalResolver "T" containerDoc
     "https://a.com/").2 (by decide)⟩

/-- C1 counterexample: on a document handled by the link-harvesting
fallback, two anchors with the same href produce two records with equal
`url` — the output is not duplicate-free. -/
theorem extractArticles_fallback_duplicate_urls :
    (extractArticles canonicalResolver "T" dupDoc "https://a.com/").map
      (fun a => a.url) = ["https://a.com/news/x", "https://a.com/news/x"] ∧
    ¬ List.Pairwise (fun a b : Article => a.url ≠ b.url)
        (extractArticles canonicalResolver "T" dupDoc "https://a.com/") :=
  ⟨rfl, by decide⟩

/-! ## Selector precedence machinery -/

theorem addArticle_len_le (acc : List Article × List String)
    (a? : Option Article) : acc.1.length ≤ (addArticle acc a?).1.length := by
  cases a? with
  | none => exact Nat.le_refl _
  | some a =>
    simp only [addArticle]
    split
    · simp
    · exact Nat.le_refl _

theorem addArticle_eq_of_len (acc : List Article × List String)
    (a? : Option Article) (h : (addArticle acc a?).1.length ≤ acc.1.length) :
    addArticle acc a? = acc := by
  cases a? with
  | none => rfl
  | some a =>
    by_cases hc : a.title ≠ "" ∧ a.url ≠ "" ∧ a.url ∉ acc.2
    · exfalso
      simp only [addArticle, if_pos hc] at h
      simp at h
    · simp only [addArticle, if_neg hc]

theorem foldl_addArticle_len_le (R : Resolver) (now : String)
    (baseUrl : String) (cs : List Container) :
    ∀ acc, acc.1.length ≤
      (cs.foldl (fun acc c => addArticle acc (parseArticle R now c baseUrl))
        acc).1.length := by
  induction cs with
  | nil => intro acc; exact Nat.le_refl _
  | cons c rest ih =>
    intro acc
    rw [List.foldl_cons]
    exact Nat.le_trans (addArticle_len_le acc _) (ih _)

theorem foldl_addArticle_eq_of_len (R : Resolver) (now : String)
    (baseUrl : String) (cs : List Container) :
    ∀ acc,
      (cs.foldl (fun acc c => addArticle acc (parseArticle R now c baseUrl))
        acc).1.length ≤ acc.1.length →
      cs.foldl (fun acc c => addArticle acc (parseArticle R now c baseUrl))
        acc = acc := by
  induction cs with
  | nil => intro acc _; rfl
  | cons c rest ih =>
    intro acc h
    rw [List.foldl_cons] at h ⊢
    have h1 := addArticle_len_le acc (parseArticle R now c baseUrl)
    have h2 := foldl_addArticle_len_le R now baseUrl rest
      (addArticle acc (parseArticle R now c baseUrl))
    have hstep : addArticle acc (parseArticle R now c baseUrl) = acc :=
      addArticle_eq_of_len _ _ (by omega)
    rw [hstep] at h ⊢
    exact ih acc h

theorem selectorPass_eq_of_nil (R : Resolver) (now : String) (d : Doc)
    (baseUrl : String) (sel : String)
    (h : (selectorPass R now d baseUrl sel ([], [])).1 = []) :
    selectorPass R now d baseUrl sel ([], []) = ([], []) := by
  apply foldl_addArticle_eq_of_len
  rw [show (selectorPass R now d baseUrl sel ([], [])).1 =
    ((d.select sel).foldl
      (fun acc c => addArticle acc (parseArticle R now c baseUrl))
      ([], [])).1 from rfl] at h
  rw [h]

theorem trySelectors_skip (R : Resolver) (now : String) (d : Doc)
    (baseUrl : String) :
    ∀ (pre rest : List String),
      (∀ s' ∈ pre, (selectorPass R now d baseUrl s' ([], [])).1 = []) →
      trySelectors R now d baseUrl (pre ++ rest) ([], []) =
        trySelectors R now d baseUrl rest ([], []) := by
  intro pre
  induction pre with
  | nil => intro rest _; rfl
  | cons s' pre ih =>
    intro rest h
    have hnil : selectorPass R now d baseUrl s' ([], []) = ([], []) :=
      selectorPass_eq_of_nil R now d baseUrl s' (h s' (List.mem_cons_self _ _))
    rw [List.cons_append]
    simp only [trySelectors]
    rw [hnil]
    rw [if_neg (by simp)]
    exact ih rest (fun x hx => h x (List.mem_cons_of_mem _ hx))

/-- C7: container selectors are mutually exclusive fallbacks — when every
selector before `s` in the priority list yields no accepted record and `s`
yields at least one, the output of `extractArticles` is exactly the pass of
selector `s` alone (no records from lower-priority selectors or from the
link fallback are merged in). -/
theorem extractArticles_selector_precedence (R : Resolver) (now : String)
    (d : Doc) (baseUrl : String) (pre : List String) (s : String)
    (post : List String) (hsel : selectors = pre ++ s :: post)
    (hpre : ∀ s' ∈ pre, (selectorPass R now d baseUrl s' ([], [])).1 = [])
    (hs : (selectorPass R now d baseUrl s ([], [])).1 ≠ []) :
    extractArticles R now d baseUrl =
      (selectorPass R now d baseUrl s ([], [])).1 := by
  have hlen : (selectorPass R now d baseUrl s ([], [])).1.length > 0 := by
    cases hsp : (selectorPass R now d baseUrl s ([], [])).1 with
    | nil => exact absurd hsp hs
    | cons a t => simp [hsp]
  have htry : trySelectors R now d baseUrl selectors ([], []) =
      selectorPass R now d baseUrl s ([], []) := by
    rw [hsel, trySelectors_skip R now d baseUrl pre (s :: post) hpre]
    simp only [trySelectors]
    rw [if_pos hlen]
  unfold extractArticles
  rw [htry, if_neg (by omega)]

theorem extractArticles_selector_precedence_witness :
    ((∀ s' ∈ (["article"] : List String),
        (selectorPass canonicalResolver "T" precedenceDoc "https://a.com/" s'
          ([], [])).1 = []) ∧
     (selectorPass canonicalResolver "T" precedenceDoc "https://a.com/"
        "[class*=\"article\"]" ([], [])).1 ≠ []) ∧
    extractArticles canonicalResolver "T" precedenceDoc "https://a.com/" =
      (selectorPass canonicalResolver "T" precedenceDoc "https://a.com/"
        "[class*=\"article\"]" ([], [])).1 :=
  ⟨⟨by decide, by decide⟩,
   extractArticles_selector_precedence canonicalResolver "T" precedenceDoc
     "https://a.com/" ["article"] "[class*=\"article\"]"
     ["[class*=\"news\"]", "[class*=\"post\"]", "[id*=\"article\"]",
      "[id*=\"news\"]", "[id*=\"post\"]", ".news-item", ".story", ".entry",
      ".card", ".item", "article.article", "article.post", "article.story"]
     rfl (by decide) (by decide)⟩

/-! ## Whitespace normal form

`WsNormal s` captures the spec's "normalized text": every whitespace
character of `s` is a plain space and no two whitespace characters are
adjacent.  Together with `jsTrim s = s` (no leading/trailing whitespace)
this is what `cleanText` guarantees. -/

/-- Adjacent characters are not both whitespace. -/
def NoWsPair (a b : Char) : Prop :=
  ¬(isJsWs a = true ∧ isJsWs b = true)

/-- Whitespace-collapsed form: all whitespace is `' '` and never doubled. -/
def WsNormal (s : String) : Prop :=
  (∀ c ∈ s.toList, isJsWs c = true → c = ' ') ∧ List.Chain' NoWsPair s.toList

theorem collapseRuns_cons_neg (p : Char → Bool) (c : Char) (rest : List Char)
    (h : p c = false) : collapseRuns p (c :: rest) = c :: collapseRuns p rest := by
  simp [collapseRuns, h]

theorem collapseRuns_pos_nil (p : Char → Bool) (c : Char) (h : p c = true) :
    collapseRuns p [c] = [' '] := by
  simp [collapseRuns, h]

theorem collapseRuns_pos_pos (p : Char → Bool) (c d : Char) (t : List Char)
    (hc : p c = true) (hd : p d = true) :
    collapseRuns p (c :: d :: t) = collapseRuns p (d :: t) := by
  simp [collapseRuns, hc, hd]

theorem collapseRuns_pos_neg (p : Char → Bool) (c d : Char) (t : List Char)
    (hc : p c = true) (hd : p d = false) :
    collapseRuns p (c :: d :: t) = ' ' :: collapseRuns p (d :: t) := by
  simp [collapseRuns, hc, hd]

theorem mem_collapseRuns (p : Char → Bool) :
    ∀ (l : List Char) (c : Char), c ∈ collapseRuns p l →
      c = ' ' ∨ (c ∈ l ∧ p c = false) := by
  intro l
  induction l with
  | nil => intro c hc; simp [collapseRuns] at hc
  | cons a rest ih =>
    intro c hc
    cases hp : p a with
    | false =>
      rw [collapseRuns_cons_neg p a rest hp] at hc
      rcases List.mem_cons.1 hc with hc | hc
      · exact Or.inr ⟨hc ▸ List.mem_cons_self a rest, hc ▸ hp⟩
      · rcases ih c hc with h1 | ⟨h1, h2⟩
        · exact Or.inl h1
        · exact Or.inr ⟨List.mem_cons_of_mem a h1, h2⟩
    | true =>
      cases rest with
      | nil =>
        rw [collapseRuns_pos_nil p a hp] at hc
        simp at hc
        exact Or.inl hc
      | cons d t =>
        cases hd : p d with
        | true =>
          rw [collapseRuns_pos_pos p a d t hp hd] at hc
          rcases ih c hc with h1 | ⟨h1, h2⟩
          · exact Or.inl h1
          · exact Or.inr ⟨List.mem_cons_of_mem a h1, h2⟩
        | false =>
          rw [collapseRuns_pos_neg p a d t hp hd] at hc
          rcases List.mem_cons.1 hc with hc | hc
          · exact Or.inl hc
          · rcases ih c hc with h1 | ⟨h1, h2⟩
            · exact Or.inl h1
            · exact Or.inr ⟨List.mem_cons_of_mem a h1, h2⟩

theorem chain'_collapseRuns (p : Char → Bool) :
    ∀ l : List Char,
      List.Chain' (fun a b => ¬(p a = true ∧ p b = true)) (collapseRuns p l) := by
  intro l
  induction l with
  | nil => simp [collapseRuns]
  | cons a rest ih =>
    cases hp : p a with
    | false =>
      rw [collapseRuns_cons_neg p a rest hp]
      rw [List.chain'_cons']
      refine ⟨?_, ih⟩
      intro y _
      simp [hp]
    | true =>
      cases rest with
      | nil =>
        rw [collapseRuns_pos_nil p a hp]
        simp
      | cons d t =>
        cases hd : p d with
        | true =>
          rw [collapseRuns_pos_pos p a d t hp hd]
          exact ih
        | false =>
          rw [collapseRuns_pos_neg p a d t hp hd]
          rw [List.chain'_cons']
          refine ⟨?_, ih⟩
          intro y hy
          rw [collapseRuns_cons_neg p d t hd] at hy
          simp only [List.head?_cons, Option.mem_def, Option.some.injEq] at hy
          subst hy
          simp [hd]

theorem collapseRuns_eq_self (p : Char → Bool) :
    ∀ l : List Char, (∀ c ∈ l, p c = false) → collapseRuns p l = l := by
  intro l
  induction l with
  | nil => intro _; rfl
  | cons a rest ih =>
    intro h
    rw [collapseRuns_cons_neg p a rest (h a (List.mem_cons_self a rest))]
    rw [ih (fun c hc => h c (List.mem_cons_of_mem a hc))]

theorem jsTrimL_subset (l : List Char) : jsTrimL l ⊆ l := fun _ hc =>
  (List.dropWhile_suffix isJsWs).subset
    ( List.IsPrefix.subset
      ( List.rdropWhile_prefix isJsWs (List.dropWhile isJsWs l)) hc)

theorem chain'_jsTrimL (Rr : Char → Char → Prop) (l : List Char)
    (h : List.Chain' Rr l) : List.Chain' Rr (jsTrimL l) :=
  List.Chain'.prefix (h.suffix (List.dropWhile_suffix isJsWs))
    ( List.rdropWhile_prefix isJsWs (List.dropWhile isJsWs l))

theorem dropWhile_rdropWhile_dropWhile (l : List Char) :
    List.dropWhile isJsWs (List.rdropWhile isJsWs (List.dropWhile isJsWs l)) =
      List.rdropWhile isJsWs (List.dropWhile isJsWs l) := by
  cases hY : List.rdropWhile isJsWs (List.dropWhile isJsWs l) with
  | nil => rfl
  | cons c t =>
    obtain ⟨s, hs⟩ := List.rdropWhile_prefix isJsWs (List.dropWhile isJsWs l)
    rw [hY] at hs
    have hXX : List.dropWhile isJsWs (List.dropWhile isJsWs l) =
        List.dropWhile isJsWs l := List.dropWhile_idempotent isJsWs l
    rw [← hs] at hXX
    rw [List.cons_append, List.dropWhile_cons] at hXX
    have hc : isJsWs c = false := by
      cases hic : isJsWs c with
      | false => rfl
      | true =>
        rw [hic, if_pos rfl] at hXX
        have hlen := congrArg List.length hXX
        rw [List.length_cons, List.length_append] at hlen
        have hle := ((List.dropWhile_suffix (l := t ++ s) isJsWs).sublist).length_le
        rw [List.length_append] at hle
        omega
    rw [List.dropWhile_cons, hc]
    simp

theorem jsTrimL_idem (l : List Char) : jsTrimL (jsTrimL l) = jsTrimL l := by
  show List.rdropWhile isJsWs (List.dropWhile isJsWs (jsTrimL l)) = jsTrimL l
  unfold jsTrimL
  rw [dropWhile_rdropWhile_dropWhile]
  exact List.rdropWhile_idempotent _ _

theorem jsTrim_idem (s : String) : jsTrim (jsTrim s) = jsTrim s := by
  show (jsTrimL ((jsTrimL s.toList).asString).toList).asString =
    (jsTrimL s.toList).asString
  rw [show ((jsTrimL s.toList).asString).toList = jsTrimL s.toList from rfl]
  rw [jsTrimL_idem]

/-- Master normalization lemma: `cleanText` output is whitespace-collapsed
and trimmed. -/
theorem cleanText_normal (s : String) :
    WsNormal (cleanText s) ∧ jsTrim (cleanText s) = cleanText s := by
  have hw : ∀ c ∈ collapseRuns isJsWs s.toList, isJsWs c = true → c = ' ' := by
    intro c hc hws
    rcases mem_collapseRuns isJsWs s.toList c hc with h | ⟨_, hf⟩
    · exact h
    · rw [hf] at hws; exact absurd hws (by simp)
  have hnl : collapseRuns (fun c => c == '\n') (collapseRuns isJsWs s.toList) =
      collapseRuns isJsWs s.toList := by
    apply collapseRuns_eq_self
    intro c hc
    cases heq : c == '\n' with
    | false => rfl
    | true =>
      have hcn : c = '\n' := by
        have := of_decide_eq_true (by exact heq)
        exact this
      subst hcn
      have : ('\n' : Char) = ' ' := hw '\n' hc (by decide)
      exact absurd this (by decide)
  have hct : (cleanText s).toList = jsTrimL (collapseRuns isJsWs s.toList) := by
    show cleanTextL s.toList = _
    unfold cleanTextL
    rw [hnl]
  refine ⟨⟨?_, ?_⟩, ?_⟩
  · rw [hct]
    intro c hc
    exact hw c (jsTrimL_subset _ hc)
  · rw [hct]
    exact chain'_jsTrimL NoWsPair _ (chain'_collapseRuns isJsWs s.toList)
  · show (jsTrimL (cleanText s).toList).asString = cleanText s
    rw [hct, jsTrimL_idem, ← hct]
    rfl

theorem jsTrim_empty : jsTrim "" = "" := rfl

theorem jsTrim_findAuthor (c : Container) :
    jsTrim (findAuthor c) = findAuthor c := by
  unfold findAuthor jsSelOr
  cases c.find "[class*=\"author\"]" with
  | none => rfl
  | some el =>
    show jsTrim (jsOr (jsTrim el.text) "") = jsOr (jsTrim el.text) ""
    unfold jsOr
    split
    · exact jsTrim_empty
    · exact jsTrim_idem el.text

/-- C3 (amended): every record emitted by `parseArticle` has `title` and
`description` in whitespace-normalized form (runs collapsed to single
spaces and trimmed, via `cleanText`), while `author` is only trimmed — the
source stores the raw trimmed author text without `cleanText`, so inner
whitespace runs survive in `author` (see the counterexample). -/
theorem parseArticle_normalization_amended (R : Resolver) (now : String)
    (c : Container) (baseUrl : String) (r : Article)
    (h : parseArticle R now c baseUrl = some r) :
    WsNormal r.title ∧ jsTrim r.title = r.title ∧
    WsNormal r.description ∧ jsTrim r.description = r.description ∧
    jsTrim r.author = r.author := by
  unfold parseArticle at h
  split at h
  · injection h with h
    subst h
    refine ⟨(cleanText_normal _).1, (cleanText_normal _).2,
      (cleanText_normal _).1, (cleanText_normal _).2, ?_⟩
    exact jsTrim_findAuthor c
  · exact absurd h (by simp)

theorem parseArticle_normalization_amended_witness :
    parseArticle canonicalResolver "T" authorContainer "https://a.com/" =
      some { title := "My Title", url := "https://a.com/news/x",
             description := "", image := "", date := "",
             author := "John  Doe", scrapedAt := "T" } ∧
    (WsNormal "My Title" ∧ jsTrim "My Title" = "My Title" ∧
     WsNormal "" ∧ jsTrim "" = "" ∧ jsTrim "John  Doe" = "John  Doe") :=
  ⟨rfl, parseArticle_normalization_amended canonicalResolver "T"
    authorContainer "https://a.com/" _ rfl⟩

/-- C3 counterexample: the `author` field is not normalized — an author
element whose text carries an internal double space is emitted verbatim
(only trimmed), violating "all text fields are normalized". -/
theorem parseArticle_author_not_normalized :
    (parseArticle canonicalResolver "T" authorContainer "https://a.com/").map
      (fun r => r.author) = some "John  Doe" ∧
    ¬ WsNormal "John  Doe" := by
  refine ⟨rfl, ?_⟩
  intro h
  have h2 := h.2
  rw [show ("John  Doe").toList =
    ['J', 'o', 'h', 'n', ' ', ' ', 'D', 'o', 'e'] from rfl] at h2
  simp only [List.chain'_cons] at h2
  exact h2.2.2.2.2.1 (by decide)

/-! ## Description-loop characterization -/

theorem findDescription_go (c : Container) :
    ∀ (sels : List String) (acc : String),
      findDescription c sels acc =
        match (sels.filterMap
            (fun s => (c.find s).map (fun e => jsTrim e.text))).find?
            (fun t => decide (t.length > 20)) with
        | some t => jsTake t 500
        | none =>
          ((sels.filterMap
            (fun s => (c.find s).map (fun e => jsTrim e.text))).getLast?).getD
            acc := by
  intro sels
  induction sels with
  | nil => intro acc; rfl
  | cons s rest ih =>
    intro acc
    cases hf : c.find s with
    | none =>
      simp only [findDescription, hf, List.filterMap_cons, Option.map_none']
      exact ih acc
    | some el =>
      simp only [findDescription, hf, List.filterMap_cons, Option.map_some']
      cases hlen : decide ((jsTrim el.text).length > 20) with
      | true =>
        have hgt : (jsTrim el.text).length > 20 := of_decide_eq_true hlen
        have hne : jsTrim el.text ≠ "" := by
          intro he
          rw [he] at hgt
          exact absurd hgt (by decide)
        rw [if_pos ⟨hne, hgt⟩]
        simp only [List.find?, hlen]
      | false =>
        have hcond : ¬(jsTrim el.text ≠ "" ∧ (jsTrim el.text).length > 20) := by
          intro hc
          rw [decide_eq_true hc.2] at hlen
          simp at hlen
        rw [if_neg hcond]
        simp only [List.find?, hlen]
        rw [ih (jsTrim el.text)]
        cases hrest : rest.filterMap
            (fun s => (c.find s).map (fun e => jsTrim e.text)) with
        | nil => rfl
        | cons x xs =>
          cases hfind : (x :: xs).find? (fun t => decide (t.length > 20)) with
          | some t => rfl
          | none =>
            have hsome : ((x :: xs).getLast?).isSome := by
              rw [List.getLast?_isSome]
              exact List.cons_ne_nil x xs
            obtain ⟨y, hy⟩ := Option.isSome_iff_exists.1 hsome
            rw [List.getLast?_cons_cons, hy]
            rfl

/-- C5 (amended): the record's description is the whitespace-normalized
form of the loop result, and the loop result is: the first description
candidate (trimmed text of the matched selectors, in order) whose length
exceeds 20 characters, truncated to 500; when no candidate exceeds 20
characters it is the trimmed text of the LAST matching selector (not
necessarily empty — empty only when no selector matches at all). -/
theorem parseArticle_description_amended (R : Resolver) (now : String)
    (c : Container) (baseUrl : String) :
    (findDescription c descSelectors "" =
      match (descSelectors.filterMap
          (fun s => (c.find s).map (fun e => jsTrim e.text))).find?
          (fun t => decide (t.length > 20)) with
      | some t => jsTake t 500
      | none =>
        ((descSelectors.filterMap
          (fun s => (c.find s).map (fun e => jsTrim e.text))).getLast?).getD
          "") ∧
    ∀ r, parseArticle R now c baseUrl = some r →
      r.description = cleanText (findDescription c descSelectors "") := by
  constructor
  · exact findDescription_go c descSelectors ""
  · intro r h
    unfold parseArticle at h
    split at h
    · injection h with h
      subst h
      rfl
    · exact absurd h (by simp)

theorem parseArticle_description_amended_witness :
    parseArticle canonicalResolver "T" shortDescContainer "https://a.com/" =
      some { title := "Title here", url := "https://a.com/news/z",
             description := "short", image := "", date := "", author := "",
             scrapedAt := "T" } ∧
    ({ title := "Title here", url := "https://a.com/news/z",
       description := "short", image := "", date := "", author := "",
       scrapedAt := "T" : Article }).description =
      cleanText (findDescription shortDescContainer descSelectors "") :=
  ⟨rfl, (parseArticle_description_amended canonicalResolver "T"
    shortDescContainer "https://a.com/").2 _ rfl⟩

/-- C5 counterexample: a container whose only description candidate is the
5-character paragraph "short" emits `description = "short"`, not the empty
string the claim requires when no candidate exceeds 20 characters. -/
theorem parseArticle_short_description_residue :
    (parseArticle canonicalResolver "T" shortDescContainer
        "https://a.com/").map (fun r => r.description) = some "short" ∧
    ∀ t ∈ descSelectors.filterMap
        (fun s => (shortDescContainer.find s).map (fun e => jsTrim e.text)),
      ¬ t.length > 20 :=
  ⟨rfl, by decide⟩

/-- C6 (amended): `looksLikeArticleUrl` keeps a URL exactly when it matches
no skip pattern and either matches an article pattern or its lower-cased
FULL URL string splits on `/` into at least 4 chunks (scheme and host
included) — not "path has at least 4 segments" as the claim reads; in
particular `https://a.com/x`, whose path has a single segment, is kept. -/
theorem looksLikeArticleUrl_amended :
    (∀ url, looksLikeArticleUrl url = true ↔
      (hasSkipPattern (jsToLower url) = false ∧
       (hasArticlePattern (jsToLower url) = true ∨
        4 ≤ jsSplitCount (jsToLower url) '/'))) ∧
    looksLikeArticleUrl "https://a.com/x" = true := by
  refine ⟨?_, rfl⟩
  intro url
  unfold looksLikeArticleUrl
  cases hskip : hasSkipPattern (jsToLower url) with
  | true => simp [hskip]
  | false => simp [hskip]

/-- C6 counterexample: the URL `https://a.com/x` matches no article
pattern, no skip pattern, and its path has one segment (fewer than 4), yet
the code keeps it — the fallback counts chunks of the whole URL split on
`/` (here `["https:", "", "a.com", "x"]`, 4 chunks), not path segments.
The link-harvesting pass emits a record for such an anchor. -/
theorem looksLikeArticleUrl_short_path_kept :
    looksLikeArticleUrl "https://a.com/x" = true ∧
    hasArticlePattern (jsToLower "https://a.com/x") = false ∧
    hasSkipPattern (jsToLower "https://a.com/x") = false ∧
    specPathSegments "https://a.com/x" < 4 ∧
    (extractFromLinks canonicalResolver "T" shortPathDoc "https://a.com/").map
      (fun r => r.url) = ["https://a.com/x"] :=
  ⟨rfl, rfl, rfl, by decide, rfl⟩

/-- C9 counterexample: validation does not strip a `/page/<digits>` SUFFIX —
it removes the first `/page/<digits>` occurrence anywhere in the path.  For
current URL `https://a.com/page/2/x` (suffix-stripped base path would be
the full `/page/2/x`) and candidate `https://a.com/x-evil`, every
acceptance condition of the claim is false, yet the code accepts. -/
theorem isValidPagination_first_occurrence_counterexample :
    isValidPagination "https://a.com/page/2/x" "https://a.com/x-evil" {} =
      true ∧
    specSuffixBasePath "/page/2/x" = "/page/2/x" ∧
    strStartsWith "/x-evil" (specSuffixBasePath "/page/2/x") = false ∧
    strContains "/x-evil" "page" = false ∧
    strContains "" "page" = false ∧
    parseURL "https://a.com/page/2/x" =
      some { protocol := "https:", hostname := "a.com",
             pathname := "/page/2/x", search := "" } ∧
    parseURL "https://a.com/x-evil" =
      some { protocol := "https:", hostname := "a.com",
             pathname := "/x-evil", search := "" } :=
  ⟨rfl, rfl, rfl, rfl, rfl, rfl, rfl⟩

/-- C9 (amended): `isValidPagination` returns false when `sameDomainOnly`
holds and hosts differ, false when the candidate is byte-identical to the
current URL (and false when either URL fails to parse), and otherwise true
exactly when the candidate's path starts with the current path with its
FIRST `/page/<digits>` occurrence and then its first `/p/<digits>`
occurrence removed (`basePathOf` — not a suffix strip), or the candidate's
path contains "page", or its query string contains "page".  The two
spec examples hold. -/
theorem isValidPagination_amended :
    (∀ (currentUrl nextUrl : String) (options : PagOptions),
      isValidPagination currentUrl nextUrl options = true ↔
        ∃ current next, parseURL currentUrl = some current ∧
          parseURL nextUrl = some next ∧
          (options.sameDomainOnly = true → current.hostname = next.hostname) ∧
          currentUrl ≠ nextUrl ∧
          (strStartsWith next.pathname (basePathOf current.pathname) = true ∨
           strContains next.pathname "page" = true ∨
           strContains next.search "page" = true)) ∧
    isValidPagination "https://a.com/p/1" "https://a.com/p/1" {} = false ∧
    isValidPagination "https://a.com/p/1" "https://b.com/p/2" {} = false := by
  refine ⟨?_, rfl, rfl⟩
  intro currentUrl nextUrl options
  unfold isValidPagination
  cases hc : parseURL currentUrl with
  | none => simp
  | some current =>
    cases hn : parseURL nextUrl with
    | none => simp
    | some next =>
      simp only []
      constructor
      · intro h
        by_cases hdom :
            (options.sameDomainOnly && decide (current.hostname ≠ next.hostname)) = true
        · rw [if_pos hdom] at h
          exact absurd h (by simp)
        · rw [if_neg hdom] at h
          by_cases heq : currentUrl = nextUrl
          · rw [if_pos heq] at h
            exact absurd h (by simp)
          · rw [if_neg heq] at h
            refine ⟨current, next, rfl, rfl, ?_, heq, ?_⟩
            · intro hsd
              by_contra hne
              apply hdom
              rw [hsd]
              simp [hne]
            · have h2 := by simpa using h
              tauto
      · rintro ⟨current', next', hc', hn', hdom, hne, hdisj⟩
        injection hc' with hc'
        injection hn' with hn'
        subst hc'
        subst hn'
        have h1 : (options.sameDomainOnly &&
            decide (current.hostname ≠ next.hostname)) = false := by
          by_cases hsd : options.sameDomainOnly = true
          · simp [hsd, hdom hsd]
          · simp [eq_false_of_ne_true hsd]
        rw [if_neg (by rw [h1]; simp)]
        rw [if_neg hne]
        simp only [Bool.or_eq_true]
        tauto

end NewsScraper
